import Mathlib

/-!
Shallow embedding of the BGP failover decision engine
(`src/configs/nornir/automation/bgp_failover_telemetry_c.py`).

Python floats are modelled by `XFloat`: an exact rational together with the
special values `+inf`, `-inf` and `nan` that IEEE arithmetic can produce.
The engine's arithmetic (`quality_score`, score smoothing, score differences)
is mirrored operation by operation; the only values reachable from actual
probe reports are rationals and `+inf` (the default for a missing `Avg`
field), but subtraction of two infinite smoothed scores can produce `nan`,
so the type carries all four cases and every comparison involving `nan` is
false, exactly as in IEEE / Python semantics.
-/

namespace BGPFailover

/-- Model of a Python float value as produced by the engine's arithmetic. -/
inductive XFloat where
  | negInf
  | fin (q : ℚ)
  | inf
  | nan
deriving DecidableEq, Repr

/-- Python `<` on floats: any comparison with `nan` is false. -/
def xlt : XFloat → XFloat → Bool
  | .nan, _ => false
  | _, .nan => false
  | .negInf, .negInf => false
  | .negInf, _ => true
  | _, .negInf => false
  | .fin a, .fin b => decide (a < b)
  | .fin _, .inf => true
  | .inf, _ => false

/-- Python `<=` on floats: any comparison with `nan` is false. -/
def xle : XFloat → XFloat → Bool
  | .nan, _ => false
  | _, .nan => false
  | .negInf, _ => true
  | _, .negInf => false
  | .fin a, .fin b => decide (a ≤ b)
  | .fin _, .inf => true
  | .inf, .inf => true
  | .inf, .fin _ => false

/-- Python `+` on floats: `nan` is absorbing, `inf + (-inf) = nan`. -/
def xadd : XFloat → XFloat → XFloat
  | .nan, _ => .nan
  | _, .nan => .nan
  | .inf, .negInf => .nan
  | .negInf, .inf => .nan
  | .inf, _ => .inf
  | _, .inf => .inf
  | .negInf, _ => .negInf
  | _, .negInf => .negInf
  | .fin a, .fin b => .fin (a + b)

/-- Python unary negation on floats. -/
def xneg : XFloat → XFloat
  | .nan => .nan
  | .inf => .negInf
  | .negInf => .inf
  | .fin a => .fin (-a)

/-- Python `-` on floats, via addition of the negation (same semantics). -/
def xsub (a b : XFloat) : XFloat := xadd a (xneg b)

/-- Multiplication by a positive rational constant (the engine only scales by
the positive literals `0.7`, `0.3`, `0.5` and `100`, for which
`c * inf = inf` and `c * (-inf) = -inf` in Python). -/
def xscale (c : ℚ) : XFloat → XFloat
  | .nan => .nan
  | .inf => .inf
  | .negInf => .negInf
  | .fin a => .fin (c * a)

/-- Division of a float by a (positive, in every use site) list length. -/
def xdivNat : XFloat → ℕ → XFloat
  | .nan, _ => .nan
  | .inf, _ => .inf
  | .negInf, _ => .negInf
  | .fin a, n => .fin (a / n)

/-- Python `sum(...)` over floats: left fold of addition starting at `0`. -/
def xsum (l : List XFloat) : XFloat := l.foldl xadd (.fin 0)

/-- True exactly on finite float values. -/
def XFloat.isFin : XFloat → Bool
  | .fin _ => true
  | _ => false

/-- True on values that are finite or `+inf` (everything the extractor can
actually build from a probe report). -/
def XFloat.finOrInf : XFloat → Bool
  | .fin _ => true
  | .inf => true
  | _ => false

/-- `IMMEDIATE_FAILOVER_PACKET_LOSS = 20.0` (module constant). -/
def IMMEDIATE_FAILOVER_PACKET_LOSS : ℚ := 20

/-- `SUSTAINED_DEGRADATION_CYCLES = 3` (module constant). -/
def SUSTAINED_DEGRADATION_CYCLES : ℕ := 3

/-- `LATENCY_THRESHOLDS['switch_margin'] = 3` (default configuration). -/
def switch_margin : ℚ := 3

/-- `LatencyMetrics` dataclass: one latency/loss/jitter snapshot per provider
per cycle. Field names follow the source (`dns_*` is the destination hop). -/
structure LatencyMetrics where
  peer_avg : XFloat
  peer_loss : XFloat
  dns_avg : XFloat
  dns_loss : XFloat
  peer_stddev : XFloat
  dns_stddev : XFloat
deriving DecidableEq, Repr

/-- `LatencyMetrics.is_healthy`: both loss figures of this (single) snapshot
strictly below the immediate-failover threshold. -/
def LatencyMetrics.is_healthy (m : LatencyMetrics) : Bool :=
  xlt m.peer_loss (.fin IMMEDIATE_FAILOVER_PACKET_LOSS) &&
  xlt m.dns_loss (.fin IMMEDIATE_FAILOVER_PACKET_LOSS)

/-- `LatencyMetrics.quality_score`:
`(peer_loss + dns_loss) * 100 + (peer_avg * 0.7 + dns_avg * 0.3)
 + (peer_stddev + dns_stddev) * 0.5`, summed in source order
`weighted_latency + loss_penalty + jitter_penalty`. -/
def LatencyMetrics.quality_score (m : LatencyMetrics) : XFloat :=
  let loss_penalty := xscale 100 (xadd m.peer_loss m.dns_loss)
  let weighted_latency := xadd (xscale (7/10) m.peer_avg) (xscale (3/10) m.dns_avg)
  let jitter_penalty := xscale (1/2) (xadd m.peer_stddev m.dns_stddev)
  xadd (xadd weighted_latency loss_penalty) jitter_penalty

/-- The sentinel snapshot substituted when a provider's measurement fails:
`LatencyMetrics(999.0, 100.0, 999.0, 100.0, 0.0, 0.0)`. -/
def penaltyMetrics : LatencyMetrics :=
  { peer_avg := .fin 999, peer_loss := .fin 100, dns_avg := .fin 999,
    dns_loss := .fin 100, peer_stddev := .fin 0, dns_stddev := .fin 0 }

/-- One hop record of an MTR report (`hub` dict): every field the extractor
reads, each optional because `dict.get` is used throughout. -/
structure Hub where
  host : Option String
  count : Option ℕ
  avg : Option ℚ
  lossPct : Option ℚ
  stdev : Option ℚ
deriving DecidableEq, Repr

/-- The `for hub in hubs` scan for the peer hop: the loop keeps overwriting,
so the LAST hop whose host equals the peer address wins. -/
def findPeerHop (hubs : List Hub) (peerAddr : String) : Option Hub :=
  hubs.foldl (fun acc hub => if hub.host = some peerAddr then some hub else acc) none

/-- The scan for the destination hop: last hop whose `count` equals the
total number of hops. -/
def findDnsHop (hubs : List Hub) : Option Hub :=
  hubs.foldl (fun acc hub => if hub.count = some hubs.length then some hub else acc) none

/-- `float(hub.get('Avg', float('inf')))`. -/
def hubAvg (h : Hub) : XFloat :=
  match h.avg with
  | some q => .fin q
  | none => .inf

/-- `float(hub.get('Loss%', 100.0))`. -/
def hubLoss (h : Hub) : XFloat :=
  match h.lossPct with
  | some q => .fin q
  | none => .fin 100

/-- `float(hub.get('StDev', 0.0))`. -/
def hubStdev (h : Hub) : XFloat :=
  match h.stdev with
  | some q => .fin q
  | none => .fin 0

/-- `BGPFailoverEngine.extract_metrics`, on the hop list of the report (the
surrounding `report.hubs` navigation and the provider-to-peer-address lookup
are done by the caller of this model). Returns `none` when either hop is
missing, which the Python signals by returning `None` (the `MissingHop`
failure of the spec). -/
def extract_metrics (hubs : List Hub) (peerAddr : String) : Option LatencyMetrics :=
  match findPeerHop hubs peerAddr, findDnsHop hubs with
  | some peerHop, some dnsHop =>
      some { peer_avg := hubAvg peerHop, peer_loss := hubLoss peerHop,
             dns_avg := hubAvg dnsHop, dns_loss := hubLoss dnsHop,
             peer_stddev := hubStdev peerHop, dns_stddev := hubStdev dnsHop }
  | _, _ => none

/-- An MTR report is well formed when its hops carry their 1-based index, as
`mtr -j` always emits (`count` of the i-th hub is `i+1` for 0-based `i`). -/
def wellFormed (hubs : List Hub) : Prop :=
  ∀ (i : ℕ) (h : i < hubs.length), (hubs.get ⟨i, h⟩).count = some (i + 1)

/-- The mutable decision state of `BGPFailoverEngine` (per-provider metrics
history, the sustained-degradation tracking pair, and the module-level
`current_primary_provider`). -/
structure EngineState (P : Type) where
  history : P → List LatencyMetrics
  degradation_counter : ℕ
  better_provider_candidate : Option P
  current_primary : P

/-- The reason strings returned by `should_switch_provider`, one constructor
per return site: `"Condiciones estables"`, `"Diferencia insuficiente ..."`,
`"Evaluando cambio a ... (k/n ciclos)"`, `"... mejor por ... (n ciclos)"`
(sustained degradation) and
`"... pérdida crítica de paquetes ... cambio inmediato"`. -/
inductive Reason where
  | stable
  | insufficientDifference
  | evaluating (counter threshold : ℕ)
  | sustainedDegradation
  | criticalPacketLoss
deriving DecidableEq, Repr

/-- `if not metrics: metrics = LatencyMetrics(999.0, 100.0, ...)` — the
snapshot actually recorded for a provider this cycle: the measurement when
it succeeded, the penalty snapshot when it failed. -/
def measuredMetrics {P : Type} (meas : P → Option LatencyMetrics) (p : P) :
    LatencyMetrics :=
  (meas p).getD penaltyMetrics

/-- `history.append(metrics); if len(history) > 3: history.pop(0)`. -/
def pushHistory (h : List LatencyMetrics) (m : LatencyMetrics) :
    List LatencyMetrics :=
  let l := h ++ [m]
  if 3 < l.length then l.drop 1 else l

/-- `sum(m.quality_score for m in history) / len(history)` (every call site
has a non-empty history, since it just appended). -/
def smoothedScore (h : List LatencyMetrics) : XFloat :=
  xdivNat (xsum (h.map LatencyMetrics.quality_score)) h.length

/-- The per-provider histories after the measurement loop of one cycle:
every configured provider gets its (penalty-substituted) snapshot appended,
with eviction past the window size. -/
def cycleHistory {P : Type} [DecidableEq P] (providers : List P)
    (st : EngineState P) (mfun : P → LatencyMetrics) :
    P → List LatencyMetrics :=
  fun p => if p ∈ providers then pushHistory (st.history p) (mfun p)
           else st.history p

/-- `provider_scores[p]['score']`: the smoothed score of a provider as of
this cycle. -/
def cycleScore {P : Type} [DecidableEq P] (providers : List P)
    (st : EngineState P) (mfun : P → LatencyMetrics) (p : P) : XFloat :=
  smoothedScore (cycleHistory providers st mfun p)

/-- `min(keys, key=score)`: first element of minimal key, Python tie-break
(a later element replaces the running best only when strictly smaller). -/
def argminBy {P : Type} (f : P → XFloat) : List P → Option P
  | [] => none
  | p :: ps => some (ps.foldl (fun b q => if xlt (f q) (f b) then q else b) p)

/-- The degradation-tracking update performed as soon as the best provider
differs from the current primary, BEFORE the margin check: same candidate →
increment the counter; changed candidate → counter restarts at 1. -/
def updatedState {P : Type} [DecidableEq P] (providers : List P)
    (st : EngineState P) (mfun : P → LatencyMetrics) (best : P) :
    EngineState P :=
  if st.better_provider_candidate = some best then
    { st with history := cycleHistory providers st mfun,
              degradation_counter := st.degradation_counter + 1 }
  else
    { st with history := cycleHistory providers st mfun,
              degradation_counter := 1,
              better_provider_candidate := some best }

/-- `self.degradation_counter = 0; self.better_provider_candidate = None`. -/
def resetState {P : Type} (st : EngineState P) : EngineState P :=
  { st with degradation_counter := 0, better_provider_candidate := none }

/-- The decision logic of `should_switch_provider` once the best provider is
known (source lines 409-460), returning the chosen provider, the reason and
the engine state after the call's mutations. -/
def decideBest {P : Type} [DecidableEq P] (providers : List P)
    (switchMargin : ℚ) (sustained : ℕ) (st : EngineState P)
    (mfun : P → LatencyMetrics) (best : P) : P × Reason × EngineState P :=
  let cur := st.current_primary
  let score := cycleScore providers st mfun
  if best ≠ cur then
    let st1 := updatedState providers st mfun best
    if xlt (.fin switchMargin) (xsub (score cur) (score best)) then
      if (mfun cur).is_healthy = false then
        (best, .criticalPacketLoss, resetState st1)
      else if sustained ≤ st1.degradation_counter then
        (best, .sustainedDegradation, resetState st1)
      else
        (cur, .evaluating st1.degradation_counter sustained, st1)
    else
      (cur, .insufficientDifference, st1)
  else
    (cur, .stable, resetState { st with history := cycleHistory providers st mfun })

/-- One full evaluation over the post-substitution snapshots `mfun`:
record every provider's snapshot, smooth, pick the best, decide. The
`none` branch (empty provider catalog) is unreachable in the program
(`PROVIDERS` has two entries); Python would raise on `min([])` before any
state mutation, so the state is returned with only the (empty) history
update applied. -/
def evaluateCycle {P : Type} [DecidableEq P] (providers : List P)
    (switchMargin : ℚ) (sustained : ℕ) (st : EngineState P)
    (mfun : P → LatencyMetrics) : P × Reason × EngineState P :=
  match argminBy (cycleScore providers st mfun) providers with
  | none => (st.current_primary, .stable,
             { st with history := cycleHistory providers st mfun })
  | some best => decideBest providers switchMargin sustained st mfun best

/-- `BGPFailoverEngine.should_switch_provider`: measurement failures are
substituted by the penalty snapshot, then the cycle is evaluated. -/
def should_switch_provider {P : Type} [DecidableEq P] (providers : List P)
    (switchMargin : ℚ) (sustained : ℕ) (st : EngineState P)
    (meas : P → Option LatencyMetrics) : P × Reason × EngineState P :=
  evaluateCycle providers switchMargin sustained st (measuredMetrics meas)

/-- Value written into a policy rule's custom fields (`as_path_prepend_count`
is an int, `local_preference` a string in the source). -/
inductive PolicyValue where
  | int (n : ℤ)
  | str (s : String)
deriving DecidableEq, Repr

/-- The NetBox policy store, abstracted to what the engine observes: which
rule ids fail their read-modify-write (GET or PATCH raising), and the
sequence of successfully persisted updates. -/
structure PolicyStore where
  failing : ℕ → Bool
  applied : List (ℕ × List (String × PolicyValue))

/-- `BGPFailoverEngine.update_netbox_policy`: in dry-run mode only logs; the
GET/PATCH read-modify-write pair is modelled as one fallible store operation
that raises (returns `.error ruleId`) when the store fails for that rule,
matching the `raise` at the end of the Python `except` block. -/
def update_netbox_policy (dryRun : Bool) (store : PolicyStore) (ruleId : ℕ)
    (updates : List (String × PolicyValue)) : Except ℕ PolicyStore :=
  if dryRun then .ok store
  else if store.failing ruleId then .error ruleId
  else .ok { store with applied := store.applied ++ [(ruleId, updates)] }

/-- The two custom-field payloads written per provider during a switch. -/
def exportUpdates (isNew : Bool) : List (String × PolicyValue) :=
  if isNew then [("as_path_prepend_count", .int 0)]
  else [("as_path_prepend_count", .int 3)]

/-- `local_preference` is set to `'200'` for the new primary, `'100'` for
the others. -/
def localPrefUpdates (isNew : Bool) : List (String × PolicyValue) :=
  if isNew then [("local_preference", .str "200")]
  else [("local_preference", .str "100")]

/-- The `for provider in PROVIDERS` loop of `switch_to_provider`: providers
whose rules are not configured are skipped (`continue`); otherwise the two
rule updates are applied in order; the first raised store error aborts the
remaining updates (the Python exception propagates out of the loop) and is
reported together with the store as persisted so far. -/
def applyPolicyRules {P : Type} [DecidableEq P] (dryRun : Bool)
    (ruleIds : String → Option ℕ) (key : P → String) (newProvider : P) :
    List P → PolicyStore → PolicyStore × Option ℕ
  | [], store => (store, none)
  | p :: rest, store =>
    match ruleIds ("EXPORT-TO-" ++ key p),
          ruleIds ("SET-LOCAL-PREF-" ++ key p) with
    | some exportId, some localPrefId =>
      match update_netbox_policy dryRun store exportId
              (exportUpdates (p = newProvider)) with
      | .error r => (store, some r)
      | .ok s1 =>
        match update_netbox_policy dryRun s1 localPrefId
                (localPrefUpdates (p = newProvider)) with
        | .error r => (s1, some r)
        | .ok s2 => applyPolicyRules dryRun ruleIds key newProvider rest s2
    | _, _ => applyPolicyRules dryRun ruleIds key newProvider rest store

/-- `BGPFailoverEngine.run_cycle` (telemetry emission omitted — it never
influences the decision or the policy store): evaluate the cycle, and when
the decision is a switch, run the policy updates; a store error leaves the
primary unchanged (the Python `current_primary_provider = new_provider`
line is never reached) and is caught by `run_cycle`'s `except`, which logs
it and returns normally — here the error is returned as the last component
instead of being swallowed. -/
def run_cycle {P : Type} [DecidableEq P] (providers : List P)
    (switchMargin : ℚ) (sustained : ℕ) (dryRun : Bool)
    (ruleIds : String → Option ℕ) (key : P → String) (st : EngineState P)
    (store : PolicyStore) (meas : P → Option LatencyMetrics) :
    EngineState P × PolicyStore × Reason × Option ℕ :=
  let r := should_switch_provider providers switchMargin sustained st meas
  if r.1 ≠ st.current_primary then
    match applyPolicyRules dryRun ruleIds key r.1 providers store with
    | (store1, some e) => (r.2.2, store1, r.2.1, some e)
    | (store1, none) =>
        ({ r.2.2 with current_primary := r.1 }, store1, r.2.1, none)
  else
    (r.2.2, store, r.2.1, none)

/-- Iterated control loop (`main`'s `while True` body) with a fixed
measurement outcome each cycle. -/
def runCycles {P : Type} [DecidableEq P] (providers : List P)
    (switchMargin : ℚ) (sustained : ℕ) (dryRun : Bool)
    (ruleIds : String → Option ℕ) (key : P → String)
    (meas : P → Option LatencyMetrics) :
    ℕ → EngineState P × PolicyStore → EngineState P × PolicyStore
  | 0, sp => sp
  | n + 1, (st, store) =>
    let r := run_cycle providers switchMargin sustained dryRun ruleIds key
               st store meas
    runCycles providers switchMargin sustained dryRun ruleIds key meas n
      (r.1, r.2.1)

/-- The two configured providers (`PROVIDERS = ['IXA', 'UFINET']`); named
`A`/`B` as in the spec's scenarios. -/
inductive Prov where
  | A
  | B
deriving DecidableEq, Repr

/-- `provider.upper().replace(' ', '_')` for the two configured providers. -/
def provKey : Prov → String
  | .A => "IXA"
  | .B => "UFINET"

/-- `POLICY_RULE_IDS` (default configuration). -/
def POLICY_RULE_IDS : String → Option ℕ := fun s =>
  if s = "EXPORT-TO-IXA" then some 1
  else if s = "EXPORT-TO-UFINET" then some 2
  else if s = "SET-LOCAL-PREF-IXA" then some 3
  else if s = "SET-LOCAL-PREF-UFINET" then some 4
  else none

/-- All six float fields are finite. -/
def LatencyMetrics.allFin (m : LatencyMetrics) : Bool :=
  m.peer_avg.isFin && m.peer_loss.isFin && m.dns_avg.isFin &&
  m.dns_loss.isFin && m.peer_stddev.isFin && m.dns_stddev.isFin

/-- All six float fields are finite or `+inf` — the shape of every snapshot
the extractor can build (a missing `Avg` field defaults to `float('inf')`,
everything else to a finite literal). -/
def LatencyMetrics.finOrInf (m : LatencyMetrics) : Bool :=
  m.peer_avg.finOrInf && m.peer_loss.finOrInf && m.dns_avg.finOrInf &&
  m.dns_loss.finOrInf && m.peer_stddev.finOrInf && m.dns_stddev.finOrInf

/-- Healthy snapshot of smoothed score 20 (the spec scenario's provider A:
`0.7 * 20 + 0.3 * 20 = 20`, no loss, no jitter). -/
def mA : LatencyMetrics := ⟨.fin 20, .fin 0, .fin 20, .fin 0, .fin 0, .fin 0⟩

/-- Healthy snapshot of score 5 (the spec scenario's provider B). -/
def mB : LatencyMetrics := ⟨.fin 5, .fin 0, .fin 5, .fin 0, .fin 0, .fin 0⟩

/-- Measurement outcome of the sustained-degradation scenario: A at score
20, B at score 5, both probes succeeding. -/
def meas3 : Prov → Option LatencyMetrics := fun p =>
  match p with
  | .A => some mA
  | .B => some mB

/-- Measurement outcome where A's probe fails (penalty snapshot substituted)
and B is healthy at score 5. -/
def measFail : Prov → Option LatencyMetrics := fun p =>
  match p with
  | .A => none
  | .B => some mB

/-- Initial engine state: empty histories, counter 0, no candidate,
primary A (`current_primary_provider = "IXA"`). -/
def st0 : EngineState Prov := ⟨fun _ => [], 0, none, .A⟩

/-- A policy store in which every rule's read-modify-write fails. -/
def failStore : PolicyStore := ⟨fun _ => true, []⟩

/-- The snapshot the extractor builds when both hops exist but carry no
`Avg` field: latency `+inf`, loss defaulting to 100. -/
def infMetrics : LatencyMetrics :=
  ⟨.inf, .fin 100, .inf, .fin 100, .fin 0, .fin 0⟩

/-- Measurement outcome with both providers returning identical snapshots
(equal scores, zero difference). -/
def measEq : Prov → Option LatencyMetrics := fun _ => some mA

/-- Healthy snapshot of score 19 (within the default margin of A's 20). -/
def mC : LatencyMetrics := ⟨.fin 19, .fin 0, .fin 19, .fin 0, .fin 0, .fin 0⟩

/-- Measurement outcome where B is better than A by only 1 score point. -/
def measClose : Prov → Option LatencyMetrics := fun p =>
  match p with
  | .A => some mA
  | .B => some mC

/-- Engine state two cycles into evaluating candidate B (degradation counter
already at 2). -/
def stC : EngineState Prov := ⟨fun _ => [], 2, some .B, .A⟩

/-- First cycle of the spec's sustained-degradation scenario (primary A at
score 20, B at score 5, default margin 3 and threshold 3). -/
def scenario1 : Prov × Reason × EngineState Prov :=
  should_switch_provider [Prov.A, Prov.B] switch_margin
    SUSTAINED_DEGRADATION_CYCLES st0 meas3

/-- Second cycle of the scenario. -/
def scenario2 : Prov × Reason × EngineState Prov :=
  should_switch_provider [Prov.A, Prov.B] switch_margin
    SUSTAINED_DEGRADATION_CYCLES scenario1.2.2 meas3

/-- Third cycle of the scenario. -/
def scenario3 : Prov × Reason × EngineState Prov :=
  should_switch_provider [Prov.A, Prov.B] switch_margin
    SUSTAINED_DEGRADATION_CYCLES scenario2.2.2 meas3

/-- A well-formed two-hop MTR report whose second (final) hop is the peer. -/
def wfHubs : List Hub :=
  [⟨some "hop1", some 1, some 3, some 0, some 0⟩,
   ⟨some "peer9", some 2, some 7, some 1, some 2⟩]

/-- Strictness: no float is less than itself (also for the infinities, and
for `nan` by the all-false rule). -/
theorem xlt_irrefl (a : XFloat) : xlt a a = false := by
  cases a <;> simp [xlt]

/-- Asymmetry of the float order. -/
theorem xlt_asymm {a b : XFloat} (h : xlt a b = true) : xlt b a = false := by
  cases a <;> cases b <;> simp_all [xlt] <;> linarith

/-- `a <= b` rules out `b < a` on floats. -/
theorem xle_not_xlt {a b : XFloat} (h : xle a b = true) : xlt b a = false := by
  cases a <;> cases b <;> simp_all [xlt, xle]

/-- A fold of the Python `min` step either keeps its seed or picks a list
element. -/
theorem foldl_min_mem {P : Type} (f : P → XFloat) (l : List P) (acc : P) :
    l.foldl (fun b q => if xlt (f q) (f b) then q else b) acc = acc ∨
    l.foldl (fun b q => if xlt (f q) (f b) then q else b) acc ∈ l := by
  induction l generalizing acc with
  | nil => exact Or.inl rfl
  | cons x xs ih =>
    simp only [List.foldl_cons]
    rcases ih (if xlt (f x) (f acc) then x else acc) with h | h
    · rw [h]
      by_cases hc : xlt (f x) (f acc) = true
      · right; simp [hc]
      · left; simp [hc]
    · right; exact List.mem_cons_of_mem _ h

/-- `min(...)` only returns configured providers. -/
theorem argminBy_mem {P : Type} {f : P → XFloat} {l : List P} {b : P}
    (h : argminBy f l = some b) : b ∈ l := by
  cases l with
  | nil => simp [argminBy] at h
  | cons x xs =>
    simp only [argminBy, Option.some.injEq] at h
    subst h
    rcases foldl_min_mem f xs x with h | h
    · rw [h]; exact List.mem_cons_self x xs
    · exact List.mem_cons_of_mem _ h

/-- Once the strict minimum is the running best, the fold keeps it. -/
theorem foldl_min_keep {P : Type} (f : P → XFloat) (b : P) :
    ∀ (l : List P), (∀ p ∈ l, p ≠ b → xlt (f b) (f p) = true) →
    l.foldl (fun x q => if xlt (f q) (f x) then q else x) b = b := by
  intro l
  induction l with
  | nil => intro _; rfl
  | cons x xs ih =>
    intro h1
    simp only [List.foldl_cons]
    by_cases hx : x = b
    · subst hx
      rw [xlt_irrefl (f x)]
      exact ih (fun p hp hpb => h1 p (List.mem_cons_of_mem _ hp) hpb)
    · rw [xlt_asymm (h1 x (List.mem_cons_self x xs) hx)]
      exact ih (fun p hp hpb => h1 p (List.mem_cons_of_mem _ hp) hpb)

/-- The fold of the Python `min` step finds a strict minimum wherever the
seed is already beaten by it. -/
theorem foldl_min_strict {P : Type} (f : P → XFloat) (b : P) :
    ∀ (l : List P) (acc : P),
      (∀ p ∈ l, p ≠ b → xlt (f b) (f p) = true) → b ∈ l →
      xlt (f b) (f acc) = true →
      l.foldl (fun x q => if xlt (f q) (f x) then q else x) acc = b := by
  intro l
  induction l with
  | nil => intro acc _ hmem _; exact absurd hmem (List.not_mem_nil b)
  | cons x xs ih =>
    intro acc h1 hmem hacc
    simp only [List.foldl_cons]
    by_cases hx : x = b
    · subst hx
      rw [hacc]
      simp only [if_true]
      exact foldl_min_keep f x xs
        (fun p hp hpb => h1 p (List.mem_cons_of_mem _ hp) hpb)
    · have hbxs : b ∈ xs := by
        rcases List.mem_cons.mp hmem with h | h
        · exact absurd h.symm hx
        · exact h
      have hx1 : xlt (f b) (f x) = true := h1 x (List.mem_cons_self x xs) hx
      by_cases hc : xlt (f x) (f acc) = true
      · rw [hc]
        simp only [if_true]
        exact ih x (fun p hp hpb => h1 p (List.mem_cons_of_mem _ hp) hpb) hbxs hx1
      · simp only [hc]
        simp only [if_false, Bool.false_eq_true]
        exact ih acc (fun p hp hpb => h1 p (List.mem_cons_of_mem _ hp) hpb) hbxs hacc

/-- When one provider scores strictly below every other configured
provider, `min(...)` selects exactly it. -/
theorem argminBy_strict {P : Type} {f : P → XFloat} {l : List P} {b : P}
    (hmem : b ∈ l) (hmin : ∀ p ∈ l, p ≠ b → xlt (f b) (f p) = true) :
    argminBy f l = some b := by
  cases l with
  | nil => exact absurd hmem (List.not_mem_nil b)
  | cons x xs =>
    simp only [argminBy, Option.some.injEq]
    by_cases hx : x = b
    · subst hx
      exact foldl_min_keep f x xs
        (fun p hp hpb => hmin p (List.mem_cons_of_mem _ hp) hpb)
    · have hbxs : b ∈ xs := by
        rcases List.mem_cons.mp hmem with h | h
        · exact absurd h.symm hx
        · exact h
      exact foldl_min_strict f b xs x
        (fun p hp hpb => hmin p (List.mem_cons_of_mem _ hp) hpb) hbxs
        (hmin x (List.mem_cons_self x xs) hx)

/-- If no element beats the seed, the fold keeps the seed (ties stay on the
earlier element, the Python `min` tie-break). -/
theorem foldl_min_no_better {P : Type} (f : P → XFloat) :
    ∀ (l : List P) (acc : P), (∀ p ∈ l, xlt (f p) (f acc) = false) →
    l.foldl (fun x q => if xlt (f q) (f x) then q else x) acc = acc := by
  intro l
  induction l with
  | nil => intro acc _; rfl
  | cons x xs ih =>
    intro acc h1
    simp only [List.foldl_cons, h1 x (List.mem_cons_self x xs)]
    simp only [if_false, Bool.false_eq_true]
    exact ih acc (fun p hp => h1 p (List.mem_cons_of_mem _ hp))

/-- With all scores equal, `min` returns the first configured provider. -/
theorem argminBy_const {P : Type} {f : P → XFloat} {x : P} {xs : List P}
    (hconst : ∀ p ∈ xs, f p = f x) : argminBy f (x :: xs) = some x := by
  simp only [argminBy, Option.some.injEq]
  exact foldl_min_no_better f xs x
    (fun p hp => by rw [hconst p hp]; exact xlt_irrefl (f x))

/-- Appending to the history window never empties it. -/
theorem pushHistory_ne_nil (h : List LatencyMetrics) (m : LatencyMetrics) :
    pushHistory h m ≠ [] := by
  unfold pushHistory
  by_cases hc : 3 < (h ++ [m]).length
  · simp only [hc, if_true]
    intro hnil
    have hlen : (h ++ [m]).length ≤ 1 := List.drop_eq_nil_iff.mp hnil
    omega
  · simp only [hc, if_false]
    simp

/-- Window elements come from the old window or from the new sample. -/
theorem pushHistory_mem {h : List LatencyMetrics} {m x : LatencyMetrics}
    (hx : x ∈ pushHistory h m) : x ∈ h ∨ x = m := by
  unfold pushHistory at hx
  by_cases hc : 3 < (h ++ [m]).length
  · simp only [hc, if_true] at hx
    have hmem : x ∈ h ++ [m] := List.mem_of_mem_drop hx
    rcases List.mem_append.mp hmem with h1 | h1
    · exact Or.inl h1
    · exact Or.inr (List.mem_singleton.mp h1)
  · simp only [hc, if_false] at hx
    rcases List.mem_append.mp hx with h1 | h1
    · exact Or.inl h1
    · exact Or.inr (List.mem_singleton.mp h1)

/-- `0 + x = x` in float addition (the start of Python's `sum`). -/
theorem xadd_zero_left (x : XFloat) : xadd (.fin 0) x = x := by
  cases x <;> simp [xadd]

/-- Dividing a float by a window of length one returns it unchanged. -/
theorem xdivNat_one (x : XFloat) : xdivNat x 1 = x := by
  cases x <;> simp [xdivNat]

/-- The mean over a single-sample window is that sample's raw score. -/
theorem smoothedScore_singleton (m : LatencyMetrics) :
    smoothedScore [m] = m.quality_score := by
  simp only [smoothedScore, List.map, xsum, List.foldl, List.length,
    List.length_nil]
  rw [xadd_zero_left]
  exact xdivNat_one _

/-- Raw quality score of the penalty snapshot:
`0.7 * 999 + 0.3 * 999 + (100 + 100) * 100 + 0 = 20999`. -/
theorem penalty_quality_score : penaltyMetrics.quality_score = .fin 20999 := by
  norm_num [penaltyMetrics, LatencyMetrics.quality_score, xadd, xscale]

/-- Python `sum` over equal finite floats. -/
theorem xsum_fin_const (c : ℚ) :
    ∀ (l : List XFloat) (a : ℚ), (∀ x ∈ l, x = .fin c) →
      l.foldl xadd (.fin a) = .fin (a + l.length * c) := by
  intro l
  induction l with
  | nil => intro a _; simp
  | cons x xs ih =>
    intro a hall
    have hx : x = .fin c := hall x (List.mem_cons_self x xs)
    subst hx
    simp only [List.foldl_cons, xadd]
    rw [ih (a + c) (fun y hy => hall y (List.mem_cons_of_mem _ hy))]
    simp only [List.length_cons]
    congr 1
    push_cast
    ring

/-- The smoothed score of a window holding only penalty snapshots is the
penalty snapshot's raw score, whatever the window length. -/
theorem smoothedScore_all_penalty {h : List LatencyMetrics}
    (hall : ∀ m ∈ h, m = penaltyMetrics) (hne : h ≠ []) :
    smoothedScore h = .fin 20999 := by
  have hmap : ∀ x ∈ h.map LatencyMetrics.quality_score, x = XFloat.fin 20999 := by
    intro x hx
    rcases List.mem_map.mp hx with ⟨m, hm, hxm⟩
    rw [← hxm, hall m hm, penalty_quality_score]
  unfold smoothedScore xsum
  rw [xsum_fin_const 20999 _ 0 hmap]
  have hlen : (h.map LatencyMetrics.quality_score).length = h.length :=
    List.length_map _ _
  rw [hlen]
  have hpos : 0 < h.length := List.length_pos.mpr hne
  have hne' : (h.length : ℚ) ≠ 0 := Nat.cast_ne_zero.mpr hpos.ne'
  simp only [xdivNat]
  congr 1
  field_simp

/-- `should_switch_provider` never changes the current primary in the state
it returns (the caller performs the switch). -/
theorem ssp_primary {P : Type} [DecidableEq P] (providers : List P)
    (margin : ℚ) (sustained : ℕ) (st : EngineState P)
    (meas : P → Option LatencyMetrics) :
    (should_switch_provider providers margin sustained st
      meas).2.2.current_primary = st.current_primary := by
  unfold should_switch_provider evaluateCycle decideBest updatedState resetState
  cases argminBy (cycleScore providers st (measuredMetrics meas)) providers with
  | none => rfl
  | some best =>
    dsimp only
    split_ifs <;> rfl

/-- Whatever the decision, the state returned by `should_switch_provider`
carries this cycle's updated histories. -/
theorem ssp_history {P : Type} [DecidableEq P] (providers : List P)
    (margin : ℚ) (sustained : ℕ) (st : EngineState P)
    (meas : P → Option LatencyMetrics) :
    (should_switch_provider providers margin sustained st meas).2.2.history
      = cycleHistory providers st (measuredMetrics meas) := by
  unfold should_switch_provider evaluateCycle decideBest updatedState resetState
  cases argminBy (cycleScore providers st (measuredMetrics meas)) providers with
  | none => rfl
  | some best =>
    dsimp only
    split_ifs <;> rfl

/-- With every probe failing, a provider whose window held only penalty
snapshots scores exactly the penalty score this cycle. -/
theorem cycleScore_all_penalty {P : Type} [DecidableEq P]
    (providers : List P) (st : EngineState P) (p : P) (hp : p ∈ providers)
    (hall : ∀ m ∈ st.history p, m = penaltyMetrics) :
    cycleScore providers st (measuredMetrics (fun _ => none)) p
      = .fin 20999 := by
  unfold cycleScore cycleHistory
  rw [if_pos hp]
  apply smoothedScore_all_penalty
  · intro m hm
    rcases pushHistory_mem hm with h | h
    · exact hall m h
    · rw [h]; rfl
  · exact pushHistory_ne_nil _ _

/-- C4: `is_healthy` is computed from the one snapshot it is given (the
engine passes the most recent one) and is true iff both that snapshot's
peer loss and destination loss are strictly below the immediate-failover
threshold (20%); any loss at or above the threshold forces false, and the
latency/jitter fields are irrelevant to the result. -/
theorem healthy_iff_loss_below_threshold (m m' : LatencyMetrics) :
    (m.is_healthy = true ↔
      (xlt m.peer_loss (.fin IMMEDIATE_FAILOVER_PACKET_LOSS) = true ∧
       xlt m.dns_loss (.fin IMMEDIATE_FAILOVER_PACKET_LOSS) = true)) ∧
    ((xle (.fin IMMEDIATE_FAILOVER_PACKET_LOSS) m.peer_loss = true ∨
      xle (.fin IMMEDIATE_FAILOVER_PACKET_LOSS) m.dns_loss = true) →
      m.is_healthy = false) ∧
    (m.peer_loss = m'.peer_loss → m.dns_loss = m'.dns_loss →
      m.is_healthy = m'.is_healthy) := by
  refine ⟨?_, ?_, ?_⟩
  · simp [LatencyMetrics.is_healthy]
  · intro hge
    unfold LatencyMetrics.is_healthy
    rcases hge with h | h
    · rw [xle_not_xlt h]
      simp
    · rw [xle_not_xlt h]
      simp
  · intro h1 h2
    unfold LatencyMetrics.is_healthy
    rw [h1, h2]

/-- C4 witness: the penalty snapshot (100% loss on both legs) is unhealthy,
via the at-or-above-threshold direction of the theorem, and changing only
its latency fields cannot change that. -/
theorem healthy_iff_loss_below_threshold_witness :
    penaltyMetrics.is_healthy = false ∧
    penaltyMetrics.is_healthy = infMetrics.is_healthy :=
  ⟨(healthy_iff_loss_below_threshold penaltyMetrics penaltyMetrics).2.1
      (Or.inl (by norm_num [xle, penaltyMetrics, IMMEDIATE_FAILOVER_PACKET_LOSS])),
   (healthy_iff_loss_below_threshold penaltyMetrics infMetrics).2.2
      (by norm_num [penaltyMetrics, infMetrics])
      (by norm_num [penaltyMetrics, infMetrics])⟩

/-- C5: the per-provider history is a bounded FIFO of at most 3 snapshots
with the oldest evicted when an append overflows; the smoothed score over a
single-sample window is that sample's raw quality score; and once a sample
is evicted it no longer influences the mean (two windows differing only in
the evicted sample smooth identically). -/
theorem history_window_and_mean :
    (∀ (h : List LatencyMetrics) (m : LatencyMetrics),
       h.length ≤ 3 → (pushHistory h m).length ≤ 3) ∧
    (∀ (x y z m : LatencyMetrics), pushHistory [x, y, z] m = [y, z, m]) ∧
    (∀ m : LatencyMetrics,
       smoothedScore (pushHistory [] m) = m.quality_score) ∧
    (∀ (a b c d m : LatencyMetrics),
       smoothedScore (pushHistory [a, b, c] m)
         = smoothedScore (pushHistory [d, b, c] m)) := by
  refine ⟨?_, ?_, ?_, ?_⟩
  · intro h m hlen
    unfold pushHistory
    dsimp only
    split
    · simp only [List.length_drop, List.length_append, List.length_singleton]
      omega
    · rename_i hc
      simp only [List.length_append, List.length_singleton] at hc ⊢
      omega
  · intro x y z m
    rfl
  · intro m
    exact smoothedScore_singleton m
  · intro a b c d m
    rfl

/-- C5 witness: round trip at the penalty snapshot — one recorded sample
keeps the window within bounds and smooths to the raw score 20999. -/
theorem history_window_and_mean_witness :
    (pushHistory [] penaltyMetrics).length ≤ 3 ∧
    smoothedScore (pushHistory [] penaltyMetrics) = XFloat.fin 20999 :=
  ⟨history_window_and_mean.1 [] penaltyMetrics (by simp),
   (history_window_and_mean.2.2.1 penaltyMetrics).trans penalty_quality_score⟩

/-- Shared helper: a best provider within the margin (score difference at
most the switch margin) always yields a stay decision. -/
theorem stay_of_diff_le_margin {P : Type} [DecidableEq P]
    (providers : List P) (margin : ℚ) (sustained : ℕ) (st : EngineState P)
    (meas : P → Option LatencyMetrics) (best : P)
    (hbest : argminBy (cycleScore providers st (measuredMetrics meas))
               providers = some best)
    (hdiff : xle (xsub
        (cycleScore providers st (measuredMetrics meas) st.current_primary)
        (cycleScore providers st (measuredMetrics meas) best))
        (.fin margin) = true) :
    (should_switch_provider providers margin sustained st meas).1
      = st.current_primary := by
  unfold should_switch_provider evaluateCycle
  rw [hbest]
  unfold decideBest
  dsimp only
  by_cases hne : best = st.current_primary
  · rw [if_neg (by simpa using hne)]
  · rw [if_pos (by simpa using hne)]
    rw [xle_not_xlt hdiff]
    simp

/-- C2: for every engine state (hence every degradation counter value) and
every measurement outcome, if the smoothed score of the best provider is
within the switch margin of the current primary's (difference at most the
margin), the decision keeps the current primary. -/
theorem no_switch_within_margin {P : Type} [DecidableEq P]
    (providers : List P) (margin : ℚ) (sustained : ℕ) (st : EngineState P)
    (meas : P → Option LatencyMetrics) (best : P)
    (hbest : argminBy (cycleScore providers st (measuredMetrics meas))
               providers = some best)
    (hdiff : xle (xsub
        (cycleScore providers st (measuredMetrics meas) st.current_primary)
        (cycleScore providers st (measuredMetrics meas) best))
        (.fin margin) = true) :
    (should_switch_provider providers margin sustained st meas).1
      = st.current_primary :=
  stay_of_diff_le_margin providers margin sustained st meas best hbest hdiff

/-- C3: whenever the best provider differs from the current primary and the
cycle stays, degradation tracking was already updated: the counter
increments by one when the best provider equals the stored candidate and
restarts at exactly 1 (not 0) when the candidate changes, the candidate
becoming the best provider. Concretely, with primary A at smoothed score 20
and B at 5 under margin 3 for three cycles, the engine reports
"evaluating 1/3", then "evaluating 2/3", then switches to B with reason
sustained degradation, resetting counter and candidate. -/
theorem degradation_tracking_three_cycles :
    (∀ (P : Type) [DecidableEq P] (providers : List P) (margin : ℚ)
       (sustained : ℕ) (st : EngineState P)
       (meas : P → Option LatencyMetrics) (best : P),
       argminBy (cycleScore providers st (measuredMetrics meas)) providers
         = some best →
       best ≠ st.current_primary →
       (should_switch_provider providers margin sustained st meas).1
         = st.current_primary →
       (should_switch_provider providers margin sustained st
           meas).2.2.degradation_counter
         = (if st.better_provider_candidate = some best
            then st.degradation_counter + 1 else 1) ∧
       (should_switch_provider providers margin sustained st
           meas).2.2.better_provider_candidate = some best) ∧
    (scenario1.1 = Prov.A ∧ scenario1.2.1 = .evaluating 1 3 ∧
     scenario2.1 = Prov.A ∧ scenario2.2.1 = .evaluating 2 3 ∧
     scenario3.1 = Prov.B ∧ scenario3.2.1 = .sustainedDegradation ∧
     scenario3.2.2.degradation_counter = 0 ∧
     scenario3.2.2.better_provider_candidate = none) := by
  constructor
  · intro P _ providers margin sustained st meas best hbest hne hstay
    unfold should_switch_provider evaluateCycle at hstay ⊢
    rw [hbest] at hstay ⊢
    unfold decideBest updatedState resetState at hstay ⊢
    dsimp only at hstay ⊢
    rw [if_pos hne] at hstay ⊢
    by_cases hcand : st.better_provider_candidate = some best
    · rw [if_pos hcand] at hstay ⊢
      split_ifs at hstay ⊢ <;>
        first
          | (dsimp only at hstay; exact absurd hstay hne)
          | (refine ⟨?_, ?_⟩ <;> simp [hcand])
    · rw [if_neg hcand] at hstay ⊢
      split_ifs at hstay ⊢ <;>
        first
          | (dsimp only at hstay; exact absurd hstay hne)
          | (refine ⟨?_, ?_⟩ <;> simp [hcand])
  · norm_num +decide [scenario1, scenario2, scenario3,
      should_switch_provider, evaluateCycle, decideBest, updatedState,
      resetState, argminBy, cycleScore, cycleHistory, smoothedScore,
      pushHistory, xsum, xdivNat, xadd, xscale, xneg, xsub, xlt, xle,
      measuredMetrics, meas3, st0, mA, mB, LatencyMetrics.quality_score,
      LatencyMetrics.is_healthy, penaltyMetrics,
      IMMEDIATE_FAILOVER_PACKET_LOSS, switch_margin,
      SUSTAINED_DEGRADATION_CYCLES]

/-- C3 witness: instantiating the tracking rule on the scenario's first
cycle — the candidate changes from none to B, so the counter restarts at
exactly 1 and the candidate becomes B. -/
theorem degradation_tracking_three_cycles_witness :
    scenario1.2.2.degradation_counter = 1 ∧
    scenario1.2.2.better_provider_candidate = some Prov.B := by
  have h := degradation_tracking_three_cycles.1 Prov [Prov.A, Prov.B]
    switch_margin SUSTAINED_DEGRADATION_CYCLES st0 meas3 Prov.B
    (by norm_num +decide [argminBy, cycleScore, cycleHistory, smoothedScore,
      pushHistory, xsum, xdivNat, xadd, xscale, xlt, measuredMetrics, meas3,
      st0, mA, mB, LatencyMetrics.quality_score])
    (by decide)
    degradation_tracking_three_cycles.2.1
  exact ⟨by simpa using h.1, h.2⟩

/-- C2 witness: with both providers measuring identically (score difference
0 at margin 3) the engine stays on A. -/
theorem no_switch_within_margin_witness :
    (should_switch_provider [Prov.A, Prov.B] 3 3 st0 measEq).1 = Prov.A :=
  no_switch_within_margin [Prov.A, Prov.B] 3 3 st0 measEq Prov.A
    (by norm_num +decide [argminBy, cycleScore, cycleHistory, smoothedScore,
      pushHistory, xsum, xdivNat, xadd, xscale, xlt, measuredMetrics, measEq,
      st0, mA, LatencyMetrics.quality_score])
    (by norm_num +decide [cycleScore, cycleHistory, smoothedScore,
      pushHistory, xsum, xdivNat, xadd, xscale, xneg, xsub, xle,
      measuredMetrics, measEq, st0, mA, LatencyMetrics.quality_score])

/-- C10: a below-margin cycle (best provider differs, score difference at
most the margin) stays with reason insufficient difference but still
advances the degradation counter — increment, or restart at 1 on candidate
change, with no cap — so the counter can pass the sustained threshold
during below-margin cycles; and on any cycle where the stored candidate is
best, the incremented counter reaches the threshold, the primary is healthy
and the difference exceeds the margin, the engine switches with reason
sustained degradation at once. -/
theorem counter_advances_below_margin :
    (∀ (P : Type) [DecidableEq P] (providers : List P) (margin : ℚ)
       (sustained : ℕ) (st : EngineState P)
       (meas : P → Option LatencyMetrics) (best : P),
       argminBy (cycleScore providers st (measuredMetrics meas)) providers
         = some best →
       best ≠ st.current_primary →
       xle (xsub
           (cycleScore providers st (measuredMetrics meas) st.current_primary)
           (cycleScore providers st (measuredMetrics meas) best))
           (.fin margin) = true →
       (should_switch_provider providers margin sustained st meas).1
         = st.current_primary ∧
       (should_switch_provider providers margin sustained st meas).2.1
         = .insufficientDifference ∧
       (should_switch_provider providers margin sustained st
           meas).2.2.degradation_counter
         = (if st.better_provider_candidate = some best
            then st.degradation_counter + 1 else 1)) ∧
    (∀ (P : Type) [DecidableEq P] (providers : List P) (margin : ℚ)
       (sustained : ℕ) (st : EngineState P)
       (meas : P → Option LatencyMetrics) (best : P),
       argminBy (cycleScore providers st (measuredMetrics meas)) providers
         = some best →
       best ≠ st.current_primary →
       st.better_provider_candidate = some best →
       sustained ≤ st.degradation_counter + 1 →
       xlt (.fin margin) (xsub
           (cycleScore providers st (measuredMetrics meas) st.current_primary)
           (cycleScore providers st (measuredMetrics meas) best)) = true →
       (measuredMetrics meas st.current_primary).is_healthy = true →
       (should_switch_provider providers margin sustained st meas).1 = best ∧
       (should_switch_provider providers margin sustained st meas).2.1
         = .sustainedDegradation) := by
  constructor
  · intro P _ providers margin sustained st meas best hbest hne hdiff
    unfold should_switch_provider evaluateCycle
    rw [hbest]
    unfold decideBest updatedState
    dsimp only
    rw [if_pos hne, xle_not_xlt hdiff]
    by_cases hcand : st.better_provider_candidate = some best
    · rw [if_pos hcand]
      refine ⟨by simp, by simp, by simp [hcand]⟩
    · rw [if_neg hcand]
      refine ⟨by simp, by simp, by simp [hcand]⟩
  · intro P _ providers margin sustained st meas best hbest hne hcand hth
      hdiff hhealthy
    unfold should_switch_provider evaluateCycle
    rw [hbest]
    unfold decideBest updatedState resetState
    dsimp only
    rw [if_pos hne, if_pos hcand, hdiff, if_pos rfl]
    rw [if_neg (show ¬ ((measuredMetrics meas st.current_primary).is_healthy
      = false) by simp [hhealthy])]
    rw [if_pos (by simpa using hth)]
    exact ⟨by simp, by simp⟩

/-- With every probe failing and only penalty snapshots in the histories,
all smoothed scores tie at 20999 and the decision keeps the primary. -/
theorem penalty_decision_stay {P : Type} [DecidableEq P] (providers : List P)
    (margin : ℚ) (sustained : ℕ) (st : EngineState P)
    (hmargin : 0 ≤ margin) (hcur : st.current_primary ∈ providers)
    (hall : ∀ p ∈ providers, ∀ m ∈ st.history p, m = penaltyMetrics) :
    (should_switch_provider providers margin sustained st (fun _ => none)).1
      = st.current_primary := by
  cases providers with
  | nil => exact absurd hcur (List.not_mem_nil _)
  | cons x xs =>
    have hsc : ∀ p ∈ x :: xs,
        cycleScore (x :: xs) st (measuredMetrics fun _ => none) p
          = .fin 20999 :=
      fun p hp => cycleScore_all_penalty (x :: xs) st p hp (hall p hp)
    have hbest : argminBy
        (cycleScore (x :: xs) st (measuredMetrics fun _ => none)) (x :: xs)
        = some x :=
      argminBy_const (fun p hp => by
        rw [hsc p (List.mem_cons_of_mem _ hp),
          hsc x (List.mem_cons_self x xs)])
    apply stay_of_diff_le_margin _ margin sustained st _ x hbest
    rw [hsc st.current_primary hcur, hsc x (List.mem_cons_self x xs)]
    have hz : xsub (XFloat.fin 20999) (XFloat.fin 20999) = XFloat.fin 0 := by
      norm_num [xsub, xadd, xneg]
    rw [hz]
    simpa [xle] using hmargin

/-- One full control-loop iteration under total probe failure keeps the
primary and keeps the histories all-penalty. -/
theorem penalty_run_cycle_step {P : Type} [DecidableEq P]
    (providers : List P) (margin : ℚ) (sustained : ℕ) (dryRun : Bool)
    (ruleIds : String → Option ℕ) (key : P → String) (st : EngineState P)
    (store : PolicyStore)
    (hmargin : 0 ≤ margin) (hcur : st.current_primary ∈ providers)
    (hall : ∀ p ∈ providers, ∀ m ∈ st.history p, m = penaltyMetrics) :
    (run_cycle providers margin sustained dryRun ruleIds key st store
        (fun _ => none)).1.current_primary = st.current_primary ∧
    (∀ p ∈ providers, ∀ m ∈ (run_cycle providers margin sustained dryRun
        ruleIds key st store (fun _ => none)).1.history p,
        m = penaltyMetrics) := by
  have hstay := penalty_decision_stay providers margin sustained st hmargin
    hcur hall
  unfold run_cycle
  dsimp only
  rw [if_neg (by simp [hstay])]
  constructor
  · exact ssp_primary providers margin sustained st (fun _ => none)
  · intro p hp m hm
    rw [ssp_history providers margin sustained st (fun _ => none)] at hm
    unfold cycleHistory at hm
    rw [if_pos hp] at hm
    rcases pushHistory_mem hm with h | h
    · exact hall p hp m h
    · rw [h]; rfl

/-- A last-match scan returns nothing iff the seed was nothing and no
element satisfies the condition. -/
theorem findHop_aux {cond : Hub → Prop} [DecidablePred cond] :
    ∀ (l : List Hub) (acc : Option Hub),
      (List.foldl (fun acc hub => if cond hub then some hub else acc) acc l
        = none ↔ acc = none ∧ ∀ hub ∈ l, ¬ cond hub) := by
  intro l
  induction l with
  | nil => intro acc; simp
  | cons y ys ih =>
    intro acc
    simp only [List.foldl_cons]
    rw [ih]
    by_cases hy : cond y
    · rw [if_pos hy]
      constructor
      · rintro ⟨h, _⟩; cases h
      · rintro ⟨_, hall⟩
        exact absurd hy (hall y (List.mem_cons_self y ys))
    · rw [if_neg hy]
      constructor
      · rintro ⟨h, hall⟩
        refine ⟨h, fun x hx => ?_⟩
        rcases List.mem_cons.mp hx with h1 | h1
        · rw [h1]; exact hy
        · exact hall x h1
      · rintro ⟨h, hall⟩
        exact ⟨h, fun x hx => hall x (List.mem_cons_of_mem _ hx)⟩

/-- The peer-hop scan fails exactly when the peer address appears on no
hop of the report. -/
theorem findPeerHop_none_iff (hubs : List Hub) (peerAddr : String) :
    findPeerHop hubs peerAddr = none ↔
      ∀ hub ∈ hubs, ¬ hub.host = some peerAddr :=
  (@findHop_aux (fun hub => hub.host = some peerAddr) _ hubs none).trans
    (by simp)

/-- On a well-formed non-empty report the destination-hop scan succeeds:
the last hop carries `count = length`. -/
theorem findDnsHop_wellFormed {hubs : List Hub} (hwf : wellFormed hubs)
    (hne : hubs ≠ []) : findDnsHop hubs ≠ none := by
  intro hnone
  have h := (@findHop_aux
    (fun hub => hub.count = some hubs.length) _ hubs none).mp hnone
  have hpos : 0 < hubs.length := List.length_pos.mpr hne
  have hlt : hubs.length - 1 < hubs.length := by omega
  have hlast := hwf (hubs.length - 1) hlt
  have heq : hubs.length - 1 + 1 = hubs.length := by omega
  rw [heq] at hlast
  exact h.2 (hubs.get ⟨hubs.length - 1, hlt⟩) (hubs.get_mem _ _) hlast

/-- The extractor fails exactly when one of its two scans does. -/
theorem extract_metrics_none_iff (hubs : List Hub) (peerAddr : String) :
    extract_metrics hubs peerAddr = none ↔
      (findPeerHop hubs peerAddr = none ∨ findDnsHop hubs = none) := by
  unfold extract_metrics
  cases findPeerHop hubs peerAddr <;> cases findDnsHop hubs <;> simp

/-- C6: on well-formed MTR reports (hops numbered 1..n, as `mtr -j` emits),
extraction fails exactly when the peer hop is absent or the report has zero
hops; peer-hop absence means the peer address appears on no hop; and a
failed measurement is recoverable — the engine substitutes the fixed
penalty snapshot and the decision cycle proceeds exactly as if that
snapshot had been measured, never aborting. -/
theorem extract_failure_recoverable :
    (∀ (hubs : List Hub) (peerAddr : String), wellFormed hubs →
       (extract_metrics hubs peerAddr = none ↔
         (findPeerHop hubs peerAddr = none ∨ hubs = []))) ∧
    (∀ (hubs : List Hub) (peerAddr : String),
       (findPeerHop hubs peerAddr = none ↔
         ∀ hub ∈ hubs, ¬ hub.host = some peerAddr)) ∧
    (∀ (P : Type) (meas : P → Option LatencyMetrics) (p : P),
       meas p = none → measuredMetrics meas p = penaltyMetrics) ∧
    (∀ (P : Type) [DecidableEq P] (providers : List P) (margin : ℚ)
       (sustained : ℕ) (st : EngineState P)
       (meas : P → Option LatencyMetrics),
       should_switch_provider providers margin sustained st meas
         = should_switch_provider providers margin sustained st
             (fun q => some (measuredMetrics meas q))) := by
  refine ⟨?_, ?_, ?_, ?_⟩
  · intro hubs peerAddr hwf
    rw [extract_metrics_none_iff]
    by_cases hne : hubs = []
    · subst hne
      simp [findPeerHop, findDnsHop]
    · constructor
      · rintro (h | h)
        · exact Or.inl h
        · exact absurd h (findDnsHop_wellFormed hwf hne)
      · rintro (h | h)
        · exact Or.inl h
        · exact absurd h hne
  · intro hubs peerAddr
    exact findPeerHop_none_iff hubs peerAddr
  · intro P meas p hfail
    unfold measuredMetrics
    rw [hfail]
    rfl
  · intro P _ providers margin sustained st meas
    rfl

/-- C6 witness: instantiating the failure characterization on a concrete
well-formed two-hop report with no hop matching the requested peer address,
and the penalty substitution on a failing measurement. -/
theorem extract_failure_recoverable_witness :
    (extract_metrics wfHubs "missing" = none ↔
      (findPeerHop wfHubs "missing" = none ∨ wfHubs = [])) ∧
    measuredMetrics (fun _ : Prov => (none : Option LatencyMetrics)) Prov.A
      = penaltyMetrics :=
  ⟨extract_failure_recoverable.1 wfHubs "missing"
     (by
       intro i h
       simp only [wfHubs, List.length_cons, List.length_nil] at h
       interval_cases i <;> rfl),
   extract_failure_recoverable.2.2.1 Prov (fun _ => none) Prov.A rfl⟩

/-- Beating a float by a (non-negative) margin rules out equality. -/
theorem xlt_add_margin_ne {a b : XFloat} {margin : ℚ} (hm : 0 ≤ margin)
    (h : xlt (xadd a (.fin margin)) b = true) : a ≠ b := by
  intro heq
  subst heq
  cases a <;> simp_all [xadd, xlt] <;> linarith

/-- `a + margin < c` on floats implies the code's `margin < c - a` check,
including every infinite combination. -/
theorem xlt_margin_sub {a c : XFloat} {margin : ℚ}
    (h : xlt (xadd a (.fin margin)) c = true) :
    xlt (.fin margin) (xsub c a) = true := by
  cases a <;> cases c <;> simp_all [xadd, xsub, xneg, xlt] <;> linarith

/-- C1: whenever the current primary's snapshot of this cycle is unhealthy
(critical packet loss, e.g. the penalty snapshot after a probe failure) and
another provider B is healthy, scores strictly below every other provider
and beats the primary's smoothed score by more than the switch margin, the
engine switches to B on this very cycle — whatever the degradation counter
— with reason critical packet loss, resetting counter and candidate. -/
theorem immediate_switch_on_critical_loss {P : Type} [DecidableEq P]
    (providers : List P) (margin : ℚ) (sustained : ℕ) (st : EngineState P)
    (meas : P → Option LatencyMetrics) (B : P)
    (hmargin : 0 ≤ margin)
    (hmem : B ∈ providers)
    (hmin : ∀ p ∈ providers, p ≠ B →
       xlt (cycleScore providers st (measuredMetrics meas) B)
           (cycleScore providers st (measuredMetrics meas) p) = true)
    (hdiff : xlt
        (xadd (cycleScore providers st (measuredMetrics meas) B)
          (.fin margin))
        (cycleScore providers st (measuredMetrics meas) st.current_primary)
        = true)
    (hBhealthy : (measuredMetrics meas B).is_healthy = true)
    (hunhealthy : (measuredMetrics meas st.current_primary).is_healthy
        = false) :
    (should_switch_provider providers margin sustained st meas).1 = B ∧
    (should_switch_provider providers margin sustained st meas).2.1
      = .criticalPacketLoss ∧
    (should_switch_provider providers margin sustained st
        meas).2.2.degradation_counter = 0 ∧
    (should_switch_provider providers margin sustained st
        meas).2.2.better_provider_candidate = none := by
  have hne : B ≠ st.current_primary := by
    intro heq
    exact xlt_add_margin_ne hmargin hdiff (by rw [heq])
  have hbest : argminBy (cycleScore providers st (measuredMetrics meas))
      providers = some B := argminBy_strict hmem hmin
  unfold should_switch_provider evaluateCycle
  rw [hbest]
  unfold decideBest updatedState resetState
  dsimp only
  rw [if_pos hne, xlt_margin_sub hdiff, if_pos rfl, if_pos hunhealthy]
  by_cases hcand : st.better_provider_candidate = some B
  · rw [if_pos hcand]
    exact ⟨rfl, rfl, rfl, rfl⟩
  · rw [if_neg hcand]
    exact ⟨rfl, rfl, rfl, rfl⟩

/-- C1 witness: A's probe fails (penalty snapshot, 100% loss, unhealthy),
B is healthy at smoothed score 5 against A's 20999 — the engine switches to
B immediately with counter 0 even though the degradation counter was 0 at
cycle start. -/
theorem immediate_switch_on_critical_loss_witness :
    (should_switch_provider [Prov.A, Prov.B] 3 3 st0 measFail).1 = Prov.B ∧
    (should_switch_provider [Prov.A, Prov.B] 3 3 st0 measFail).2.1
      = Reason.criticalPacketLoss ∧
    (should_switch_provider [Prov.A, Prov.B] 3 3
        st0 measFail).2.2.degradation_counter = 0 ∧
    (should_switch_provider [Prov.A, Prov.B] 3 3
        st0 measFail).2.2.better_provider_candidate = none :=
  immediate_switch_on_critical_loss [Prov.A, Prov.B] 3 3 st0 measFail Prov.B
    (by norm_num)
    (by decide)
    (by
      intro p hp hpne
      fin_cases hp
      · norm_num +decide [cycleScore, cycleHistory, smoothedScore,
          pushHistory, xsum, xdivNat, xadd, xscale, xlt, measuredMetrics,
          measFail, st0, mB, penaltyMetrics, LatencyMetrics.quality_score]
      · exact absurd rfl hpne)
    (by norm_num +decide [cycleScore, cycleHistory, smoothedScore,
      pushHistory, xsum, xdivNat, xadd, xscale, xlt, measuredMetrics,
      measFail, st0, mB, penaltyMetrics, LatencyMetrics.quality_score])
    (by norm_num +decide [measuredMetrics, measFail, mB,
      LatencyMetrics.is_healthy, xlt, IMMEDIATE_FAILOVER_PACKET_LOSS])
    (by norm_num +decide [measuredMetrics, measFail, penaltyMetrics,
      LatencyMetrics.is_healthy, xlt, IMMEDIATE_FAILOVER_PACKET_LOSS])

/-- C9: an unhealthy primary never triggers a switch by itself — every
switch decision picks a configured provider whose smoothed score beats the
current primary's by strictly more than the switch margin; and when every
provider's history holds only penalty snapshots (all scores equal) and
every probe keeps failing, the control loop never changes primary,
no matter how many cycles run. -/
theorem switch_requires_margin_advantage :
    (∀ (P : Type) [DecidableEq P] (providers : List P) (margin : ℚ)
       (sustained : ℕ) (st : EngineState P)
       (meas : P → Option LatencyMetrics),
       (should_switch_provider providers margin sustained st meas).1
         ≠ st.current_primary →
       (should_switch_provider providers margin sustained st meas).1
         ∈ providers ∧
       xlt (.fin margin) (xsub
         (cycleScore providers st (measuredMetrics meas) st.current_primary)
         (cycleScore providers st (measuredMetrics meas)
           (should_switch_provider providers margin sustained st meas).1))
         = true) ∧
    (∀ (P : Type) [DecidableEq P] (providers : List P) (margin : ℚ)
       (sustained : ℕ) (dryRun : Bool) (ruleIds : String → Option ℕ)
       (key : P → String) (st : EngineState P) (store : PolicyStore),
       0 ≤ margin → st.current_primary ∈ providers →
       (∀ p ∈ providers, ∀ m ∈ st.history p, m = penaltyMetrics) →
       ∀ n, (runCycles providers margin sustained dryRun ruleIds key
               (fun _ => none) n (st, store)).1.current_primary
              = st.current_primary) := by
  constructor
  · intro P _ providers margin sustained st meas hswitch
    unfold should_switch_provider evaluateCycle at hswitch ⊢
    cases hbest : argminBy (cycleScore providers st (measuredMetrics meas))
        providers with
    | none =>
      rw [hbest] at hswitch
      exact absurd rfl hswitch
    | some best =>
      rw [hbest] at hswitch
      dsimp only at hswitch ⊢
      unfold decideBest updatedState resetState at hswitch ⊢
      dsimp only at hswitch ⊢
      by_cases hne : best ≠ st.current_primary
      · rw [if_pos hne] at hswitch ⊢
        by_cases hd : xlt (.fin margin) (xsub
            (cycleScore providers st (measuredMetrics meas)
              st.current_primary)
            (cycleScore providers st (measuredMetrics meas) best)) = true
        · rw [hd, if_pos rfl] at hswitch ⊢
          split_ifs at hswitch ⊢ <;>
            first
              | exact ⟨argminBy_mem hbest, hd⟩
              | exact absurd rfl hswitch
        · simp only [Bool.not_eq_true] at hd
          rw [hd] at hswitch
          rw [if_neg (by simp)] at hswitch
          exact absurd rfl hswitch
      · rw [if_neg hne] at hswitch
        exact absurd rfl hswitch
  · intro P _ providers margin sustained dryRun ruleIds key st store hmargin
      hcur hall n
    revert st store
    induction n with
    | zero => intro st store _ _; rfl
    | succ k ih =>
      intro st store hcur hall
      have hstep := penalty_run_cycle_step providers margin sustained dryRun
        ruleIds key st store hmargin hcur hall
      unfold runCycles
      dsimp only
      rw [ih _ _ (by rw [hstep.1]; exact hcur) hstep.2]
      exact hstep.1

/-- C9 witness: every switch carries a margin advantage — at the C1
scenario the switch target B is configured and beats A by more than margin
3; and from all-penalty start, two failing cycles leave primary A in place. -/
theorem switch_requires_margin_advantage_witness :
    ((should_switch_provider [Prov.A, Prov.B] 3 3 st0 measFail).1
        ∈ [Prov.A, Prov.B] ∧
     xlt (.fin 3) (xsub
       (cycleScore [Prov.A, Prov.B] st0 (measuredMetrics measFail)
         st0.current_primary)
       (cycleScore [Prov.A, Prov.B] st0 (measuredMetrics measFail)
         (should_switch_provider [Prov.A, Prov.B] 3 3 st0 measFail).1))
       = true) ∧
    (runCycles [Prov.A, Prov.B] 3 3 true POLICY_RULE_IDS provKey
       (fun _ => none) 2 (st0, failStore)).1.current_primary = Prov.A := by
  constructor
  · exact switch_requires_margin_advantage.1 Prov [Prov.A, Prov.B] 3 3 st0
      measFail
      (by norm_num +decide [should_switch_provider, evaluateCycle,
        decideBest, updatedState, resetState, argminBy, cycleScore,
        cycleHistory, smoothedScore, pushHistory, xsum, xdivNat, xadd,
        xscale, xneg, xsub, xlt, xle, measuredMetrics, measFail, st0, mB,
        penaltyMetrics, LatencyMetrics.quality_score,
        LatencyMetrics.is_healthy, IMMEDIATE_FAILOVER_PACKET_LOSS])
  · exact switch_requires_margin_advantage.2 Prov [Prov.A, Prov.B] 3 3 true
      POLICY_RULE_IDS provKey st0 failStore (by norm_num) (by decide)
      (by
        intro p hp m hm
        simp [st0] at hm) 2

/-- Positive scaling keeps finite-or-infinite values finite-or-infinite. -/
theorem xscale_finOrInf {c : ℚ} {x : XFloat} (h : x.finOrInf = true) :
    (xscale c x).finOrInf = true := by
  cases x <;> simp_all [xscale, XFloat.finOrInf]

/-- Addition keeps finite-or-infinite values finite-or-infinite (no `nan`
can appear without a `-inf` operand). -/
theorem xadd_finOrInf {x y : XFloat} (hx : x.finOrInf = true)
    (hy : y.finOrInf = true) : (xadd x y).finOrInf = true := by
  cases x <;> cases y <;> simp_all [xadd, XFloat.finOrInf]

/-- `inf + y = inf` whenever `y` is finite or `+inf`. -/
theorem xadd_inf_left {y : XFloat} (hy : y.finOrInf = true) :
    xadd XFloat.inf y = XFloat.inf := by
  cases y <;> simp_all [xadd, XFloat.finOrInf]

/-- `x + inf = inf` whenever `x` is finite or `+inf`. -/
theorem xadd_inf_right {x : XFloat} (hx : x.finOrInf = true) :
    xadd x XFloat.inf = XFloat.inf := by
  cases x <;> simp_all [xadd, XFloat.finOrInf]

/-- Adding finite floats stays finite. -/
theorem xadd_isFin {x y : XFloat} (hx : x.isFin = true)
    (hy : y.isFin = true) : (xadd x y).isFin = true := by
  cases x <;> cases y <;> simp_all [xadd, XFloat.isFin]

/-- Scaling finite floats stays finite. -/
theorem xscale_isFin {c : ℚ} {x : XFloat} (h : x.isFin = true) :
    (xscale c x).isFin = true := by
  cases x <;> simp_all [xscale, XFloat.isFin]

/-- Finite floats are rationals. -/
theorem isFin_exists {x : XFloat} (h : x.isFin = true) :
    ∃ q : ℚ, x = XFloat.fin q := by
  cases x <;> simp_all [XFloat.isFin]

/-- Any finite float is strictly below `+inf`. -/
theorem xlt_fin_inf (q : ℚ) : xlt (XFloat.fin q) XFloat.inf = true := rfl

/-- Finite-or-infinite floats are never `nan`. -/
theorem finOrInf_ne_nan {x : XFloat} (h : x.finOrInf = true) :
    x ≠ XFloat.nan := by
  cases x <;> simp_all [XFloat.finOrInf]

/-- C7 counterexample (to the claim as stated): the extractor's snapshot
for hops missing their `Avg` field has `+inf` peer latency and its computed
quality score is `+inf` — an infinite value, not the claimed "very large
but finite" one. -/
theorem infinite_latency_score_not_finite :
    infMetrics.peer_avg = XFloat.inf ∧
    infMetrics.quality_score = XFloat.inf ∧
    infMetrics.quality_score.isFin = false := by
  refine ⟨rfl, rfl, ?_⟩
  rfl

/-- C7 (amended): the score is total; on every snapshot whose fields are
finite or `+inf` — all the extractor can build — it is finite or `+inf`,
hence never `nan`; with `+inf` latency on either leg it is exactly `+inf`
(infinite, not finite), which still sorts strictly worse than the score of
every all-finite snapshot. -/
theorem score_inf_propagation :
    (∀ m : LatencyMetrics, m.finOrInf = true →
       (m.quality_score).finOrInf = true) ∧
    (∀ m : LatencyMetrics, m.finOrInf = true →
       (m.peer_avg = XFloat.inf ∨ m.dns_avg = XFloat.inf) →
       m.quality_score = XFloat.inf) ∧
    (∀ m mfin : LatencyMetrics, m.finOrInf = true →
       (m.peer_avg = XFloat.inf ∨ m.dns_avg = XFloat.inf) →
       mfin.allFin = true →
       m.quality_score ≠ XFloat.nan ∧
       mfin.quality_score.isFin = true ∧
       xlt mfin.quality_score m.quality_score = true) := by
  have hfinof : ∀ {x : XFloat}, x.isFin = true → x.finOrInf = true := by
    intro x h; cases x <;> simp_all [XFloat.isFin, XFloat.finOrInf]
  have hscorefinof : ∀ m : LatencyMetrics, m.finOrInf = true →
      (m.quality_score).finOrInf = true := by
    intro m hm
    simp only [LatencyMetrics.finOrInf, Bool.and_eq_true] at hm
    obtain ⟨⟨⟨⟨⟨hpa, hpl⟩, hda⟩, hdl⟩, hps⟩, hds⟩ := hm
    unfold LatencyMetrics.quality_score
    dsimp only
    exact xadd_finOrInf
      (xadd_finOrInf
        (xadd_finOrInf (xscale_finOrInf hpa) (xscale_finOrInf hda))
        (xscale_finOrInf (xadd_finOrInf hpl hdl)))
      (xscale_finOrInf (xadd_finOrInf hps hds))
  have hscoreinf : ∀ m : LatencyMetrics, m.finOrInf = true →
      (m.peer_avg = XFloat.inf ∨ m.dns_avg = XFloat.inf) →
      m.quality_score = XFloat.inf := by
    intro m hm hinf
    simp only [LatencyMetrics.finOrInf, Bool.and_eq_true] at hm
    obtain ⟨⟨⟨⟨⟨hpa, hpl⟩, hda⟩, hdl⟩, hps⟩, hds⟩ := hm
    have hW : xadd (xscale (7/10) m.peer_avg) (xscale (3/10) m.dns_avg)
        = XFloat.inf := by
      rcases hinf with h | h
      · rw [h]
        exact xadd_inf_left (xscale_finOrInf hda)
      · rw [h]
        exact xadd_inf_right (xscale_finOrInf hpa)
    unfold LatencyMetrics.quality_score
    dsimp only
    rw [hW, xadd_inf_left (xscale_finOrInf (xadd_finOrInf hpl hdl))]
    exact xadd_inf_left (xscale_finOrInf (xadd_finOrInf hps hds))
  refine ⟨hscorefinof, hscoreinf, ?_⟩
  intro m mfin hm hinf hfin
  have hminf := hscoreinf m hm hinf
  have hfinscore : (mfin.quality_score).isFin = true := by
    simp only [LatencyMetrics.allFin, Bool.and_eq_true] at hfin
    obtain ⟨⟨⟨⟨⟨hpa, hpl⟩, hda⟩, hdl⟩, hps⟩, hds⟩ := hfin
    unfold LatencyMetrics.quality_score
    dsimp only
    exact xadd_isFin
      (xadd_isFin
        (xadd_isFin (xscale_isFin hpa) (xscale_isFin hda))
        (xscale_isFin (xadd_isFin hpl hdl)))
      (xscale_isFin (xadd_isFin hps hds))
  refine ⟨?_, hfinscore, ?_⟩
  · rw [hminf]
    intro h
    cases h
  · obtain ⟨q, hq⟩ := isFin_exists hfinscore
    rw [hminf, hq]
    exact xlt_fin_inf q

/-- C7 witness: the extractor's infinite-latency snapshot scores `+inf`,
never `nan`, and sorts strictly worse than the finite score of the healthy
snapshot mB. -/
theorem score_inf_propagation_witness :
    infMetrics.quality_score ≠ XFloat.nan ∧
    mB.quality_score.isFin = true ∧
    xlt mB.quality_score infMetrics.quality_score = true :=
  score_inf_propagation.2.2 infMetrics mB (by rfl) (Or.inl rfl) (by rfl)

/-- C10 witness: with candidate B already at counter 2, one above-margin
cycle (A at 20, B at 5) switches at threshold 3; and a below-margin cycle
(B at 19 against A's 20) stays with insufficient difference yet pushes the
counter to 3. -/
theorem counter_advances_below_margin_witness :
    ((should_switch_provider [Prov.A, Prov.B] 3 3 stC measClose).1 = Prov.A ∧
     (should_switch_provider [Prov.A, Prov.B] 3 3 stC measClose).2.1
       = Reason.insufficientDifference ∧
     (should_switch_provider [Prov.A, Prov.B] 3 3
        stC measClose).2.2.degradation_counter = 3) ∧
    ((should_switch_provider [Prov.A, Prov.B] 3 3 stC meas3).1 = Prov.B ∧
     (should_switch_provider [Prov.A, Prov.B] 3 3 stC meas3).2.1
       = Reason.sustainedDegradation) := by
  constructor
  · have h := counter_advances_below_margin.1 Prov [Prov.A, Prov.B] 3 3 stC
      measClose Prov.B
      (by norm_num +decide [argminBy, cycleScore, cycleHistory,
        smoothedScore, pushHistory, xsum, xdivNat, xadd, xscale, xlt,
        measuredMetrics, measClose, stC, mA, mC,
        LatencyMetrics.quality_score])
      (by decide)
      (by norm_num +decide [cycleScore, cycleHistory, smoothedScore,
        pushHistory, xsum, xdivNat, xadd, xscale, xneg, xsub, xle,
        measuredMetrics, measClose, stC, mA, mC,
        LatencyMetrics.quality_score])
    exact ⟨h.1, h.2.1, by simpa using h.2.2⟩
  · exact counter_advances_below_margin.2 Prov [Prov.A, Prov.B] 3 3 stC
      meas3 Prov.B
      (by norm_num +decide [argminBy, cycleScore, cycleHistory,
        smoothedScore, pushHistory, xsum, xdivNat, xadd, xscale, xlt,
        measuredMetrics, meas3, stC, mA, mB, LatencyMetrics.quality_score])
      (by decide) (by decide) (by decide)
      (by norm_num +decide [cycleScore, cycleHistory, smoothedScore,
        pushHistory, xsum, xdivNat, xadd, xscale, xneg, xsub, xlt,
        measuredMetrics, meas3, stC, mA, mB, LatencyMetrics.quality_score])
      (by norm_num +decide [measuredMetrics, meas3, mA,
        LatencyMetrics.is_healthy, xlt, IMMEDIATE_FAILOVER_PACKET_LOSS])

/-- C8: when a policy-store read-modify-write fails while a switch is being
applied, the cycle still returns normally (the Python `except` in
`run_cycle` catches the propagated error): the error is surfaced in the
cycle's result, the store is left exactly as the aborted update loop left
it, and the primary provider is unchanged — the failure is isolated to
this cycle and the control loop does not crash. -/
theorem policy_store_error_isolated {P : Type} [DecidableEq P]
    (providers : List P) (margin : ℚ) (sustained : ℕ) (dryRun : Bool)
    (ruleIds : String → Option ℕ) (key : P → String) (st : EngineState P)
    (store store1 : PolicyStore) (meas : P → Option LatencyMetrics) (r : ℕ)
    (hswitch : (should_switch_provider providers margin sustained st meas).1
        ≠ st.current_primary)
    (herr : applyPolicyRules dryRun ruleIds key
        (should_switch_provider providers margin sustained st meas).1
        providers store = (store1, some r)) :
    (run_cycle providers margin sustained dryRun ruleIds key st store
        meas).1.current_primary = st.current_primary ∧
    (run_cycle providers margin sustained dryRun ruleIds key st store
        meas).2.2.2 = some r ∧
    (run_cycle providers margin sustained dryRun ruleIds key st store
        meas).2.1 = store1 := by
  unfold run_cycle
  dsimp only
  rw [if_pos hswitch, herr]
  exact ⟨ssp_primary providers margin sustained st meas, rfl, rfl⟩

/-- C8 witness: with a store failing every rule (dry run off), the cycle
that decides to switch from A to B surfaces the error of the first rule
touched (rule 1, `EXPORT-TO-IXA`), persists nothing, leaves the primary on
A, and returns normally. -/
theorem policy_store_error_isolated_witness :
    (run_cycle [Prov.A, Prov.B] 3 3 false POLICY_RULE_IDS provKey st0
        failStore measFail).1.current_primary = Prov.A ∧
    (run_cycle [Prov.A, Prov.B] 3 3 false POLICY_RULE_IDS provKey st0
        failStore measFail).2.2.2 = some 1 ∧
    (run_cycle [Prov.A, Prov.B] 3 3 false POLICY_RULE_IDS provKey st0
        failStore measFail).2.1 = failStore :=
  policy_store_error_isolated [Prov.A, Prov.B] 3 3 false POLICY_RULE_IDS
    provKey st0 failStore failStore measFail 1
    (by norm_num +decide [should_switch_provider, evaluateCycle, decideBest,
      updatedState, resetState, argminBy, cycleScore, cycleHistory,
      smoothedScore, pushHistory, xsum, xdivNat, xadd, xscale, xneg, xsub,
      xlt, xle, measuredMetrics, measFail, st0, mB, penaltyMetrics,
      LatencyMetrics.quality_score, LatencyMetrics.is_healthy,
      IMMEDIATE_FAILOVER_PACKET_LOSS])
    rfl

end BGPFailover
